import Mathlib

/-!
Shallow embedding of `src/metodos_numericos.py` (class `MetodosNumericos`):
the three root-finding solvers (`biseccion`, `newton_raphson`, `punto_fijo`)
and the convergence analyzer (`analizar_convergencia`).

Modelling conventions:
* Python floats are idealized as exact rationals `ℚ`; the special value
  the float infinity that the solvers use for a not-yet-measured error is
  represented by `none` in an `Option ℚ` (so `some q` is a finite float).
* A Python callable that may raise is `ℚ → Except Unit Resultado`-style:
  the solvers receive `Func := ℚ → Except Unit ℚ` and an uncaught raise
  propagates as `Except.error`, exactly as in the source, which has no
  try/except inside the solver methods.
* The result dictionary is the structure `Resultado`, with the Spanish keys of the source and message strings kept verbatim.
-/

namespace MetNum

/-- The result dictionary returned by every solver
(`raiz`, `iteraciones`, `convergencia`, `error`, `historial_x`,
`historial_error`, `mensaje`). `error = none` models the float infinity, and a
`none` entry of `historial_error` is the `inf` sentinel the bisection loop
appends on its first pass. -/
structure Resultado where
  raiz : Option ℚ
  iteraciones : ℕ
  convergencia : Bool
  error : Option ℚ
  historial_x : List ℚ
  historial_error : List (Option ℚ)
  mensaje : String
deriving DecidableEq, Repr

/-- A caller-supplied scalar function; evaluation may raise. -/
abbrev Func := ℚ → Except Unit ℚ

/-- Totalize a pure function into a never-raising `Func`. -/
def tl (f : ℚ → ℚ) : Func := fun x => .ok (f x)

/-- `error > tolerancia` where `error` may be the `inf` sentinel. -/
def errGT (e : Option ℚ) (t : ℚ) : Bool :=
  match e with
  | none => true
  | some q => decide (t < q)

/-- `error <= tolerancia` where `error` may be the `inf` sentinel. -/
def errLE (e : Option ℚ) (t : ℚ) : Bool :=
  match e with
  | none => false
  | some q => decide (q ≤ t)

/-- The dictionary built after the bisection loop exits
(lines 85-95 of the source). -/
def finalRes (tol a b : ℚ) (iter : ℕ) (err : Option ℚ)
    (hx : List ℚ) (he : List (Option ℚ)) : Resultado :=
  { raiz := some ((a + b) / 2), iteraciones := iter,
    convergencia := errLE err tol, error := err,
    historial_x := hx, historial_error := he,
    mensaje := if errLE err tol then "Convergencia exitosa"
               else "Máximo de iteraciones alcanzado" }

/-- The `while` loop of `MetodosNumericos.biseccion` (lines 51-83).
`fuel` is the number of loop passes still allowed, so the loop head
condition `iteracion < max_iteraciones` is `fuel > 0`; `iter`, `a`, `b`,
`xant`, `err`, `hx`, `he` carry `iteracion`, the interval, `x_anterior`,
`error` and the two history lists. -/
def biseccionLoop (f : Func) (tol : ℚ) :
    ℕ → ℕ → ℚ → ℚ → ℚ → Option ℚ → List ℚ → List (Option ℚ) →
    Except Unit Resultado
  | 0, iter, a, b, _, err, hx, he => .ok (finalRes tol a b iter err hx he)
  | fuel + 1, iter, a, b, xant, err, hx, he =>
    if errGT err tol then
      let c := (a + b) / 2
      let hx2 := hx ++ [c]
      let err2 := if 0 < iter then some |c - xant| else err
      let he2 := he ++ [err2]
      match f c with
      | .error e => .error e
      | .ok fc =>
        if |fc| < tol then
          .ok { raiz := some c, iteraciones := iter + 1, convergencia := true,
                error := some |fc|, historial_x := hx2, historial_error := he2,
                mensaje := "Convergencia exitosa" }
        else
          match f a with
          | .error e => .error e
          | .ok fa =>
            if fa * fc < 0 then
              biseccionLoop f tol fuel (iter + 1) a c c err2 hx2 he2
            else
              biseccionLoop f tol fuel (iter + 1) c b c err2 hx2 he2
    else .ok (finalRes tol a b iter err hx he)

/-- `MetodosNumericos.biseccion` (lines 21-95): evaluate `f a` and `f b`,
return the precondition-failure dictionary when `f(a)*f(b) >= 0`, otherwise
run the loop with `x_anterior = 0`, `error = inf`, empty histories. -/
def biseccion (tol : ℚ) (maxIter : ℕ) (f : Func) (a b : ℚ) :
    Except Unit Resultado :=
  match f a with
  | .error e => .error e
  | .ok fa =>
    match f b with
    | .error e => .error e
    | .ok fb =>
      if 0 ≤ fa * fb then
        .ok { raiz := none, iteraciones := 0, convergencia := false,
              error := none, historial_x := [], historial_error := [],
              mensaje := "No se garantiza la existencia de raíz en el intervalo" }
      else biseccionLoop f tol maxIter 0 a b 0 none [] []

/-- The dictionary built after the Newton loop exits (lines 155-163). -/
def newtonFinal (tol x : ℚ) (iter : ℕ) (err : Option ℚ)
    (hx : List ℚ) (he : List (Option ℚ)) : Resultado :=
  { raiz := some x, iteraciones := iter, convergencia := errLE err tol,
    error := err, historial_x := hx, historial_error := he,
    mensaje := if errLE err tol then "Convergencia exitosa"
               else "Máximo de iteraciones alcanzado" }

/-- The `while` loop of `MetodosNumericos.newton_raphson` (lines 115-153):
evaluate `f` and the derivative, bail out on a derivative smaller than
`1e-15`, otherwise take the Newton step and stop when `|f(x_nuevo)|` is
below the tolerance. -/
def newtonLoop (f fp : Func) (tol : ℚ) :
    ℕ → ℕ → ℚ → Option ℚ → List ℚ → List (Option ℚ) →
    Except Unit Resultado
  | 0, iter, x, err, hx, he => .ok (newtonFinal tol x iter err hx he)
  | fuel + 1, iter, x, err, hx, he =>
    if errGT err tol then
      match f x with
      | .error e => .error e
      | .ok fx =>
        match fp x with
        | .error e => .error e
        | .ok fpx =>
          if |fpx| < 1 / 10 ^ 15 then
            .ok { raiz := some x, iteraciones := iter, convergencia := false,
                  error := none, historial_x := hx, historial_error := he,
                  mensaje := "Derivada muy pequeña - posible punto crítico" }
          else
            let xn := x - fx / fpx
            let err2 := some |xn - x|
            let hx2 := hx ++ [xn]
            let he2 := he ++ [err2]
            match f xn with
            | .error e => .error e
            | .ok fxn =>
              if |fxn| < tol then
                .ok { raiz := some xn, iteraciones := iter + 1,
                      convergencia := true, error := err2,
                      historial_x := hx2, historial_error := he2,
                      mensaje := "Convergencia exitosa" }
              else newtonLoop f fp tol fuel (iter + 1) xn err2 hx2 he2
    else .ok (newtonFinal tol x iter err hx he)

/-- `MetodosNumericos.newton_raphson` (lines 97-163). -/
def newton_raphson (tol : ℚ) (maxIter : ℕ) (f fp : Func) (x0 : ℚ) :
    Except Unit Resultado :=
  newtonLoop f fp tol maxIter 0 x0 none [x0] []

/-- The dictionary built after the fixed-point loop exits (lines 218-226). -/
def pfFinal (tol x : ℚ) (iter : ℕ) (err : Option ℚ)
    (hx : List ℚ) (he : List (Option ℚ)) : Resultado :=
  { raiz := some x, iteraciones := iter, convergencia := errLE err tol,
    error := err, historial_x := hx, historial_error := he,
    mensaje := if errLE err tol then "Convergencia exitosa"
               else "Máximo de iteraciones alcanzado" }

/-- The `while` loop of `MetodosNumericos.punto_fijo` (lines 182-216):
apply `g`, converge when the step is below the tolerance, abort with the
divergence message when `|x_nuevo| > 1e10`. -/
def puntoFijoLoop (g : Func) (tol : ℚ) :
    ℕ → ℕ → ℚ → Option ℚ → List ℚ → List (Option ℚ) →
    Except Unit Resultado
  | 0, iter, x, err, hx, he => .ok (pfFinal tol x iter err hx he)
  | fuel + 1, iter, x, err, hx, he =>
    if errGT err tol then
      match g x with
      | .error e => .error e
      | .ok xn =>
        let err2 := some |xn - x|
        let hx2 := hx ++ [xn]
        let he2 := he ++ [err2]
        if |xn - x| < tol then
          .ok { raiz := some xn, iteraciones := iter + 1, convergencia := true,
                error := err2, historial_x := hx2, historial_error := he2,
                mensaje := "Convergencia exitosa" }
        else if 10 ^ 10 < |xn| then
          .ok { raiz := some xn, iteraciones := iter + 1, convergencia := false,
                error := none, historial_x := hx2, historial_error := he2,
                mensaje := "Método divergente" }
        else puntoFijoLoop g tol fuel (iter + 1) xn err2 hx2 he2
    else .ok (pfFinal tol x iter err hx he)

/-- `MetodosNumericos.punto_fijo` (lines 165-226). -/
def punto_fijo (tol : ℚ) (maxIter : ℕ) (g : Func) (x0 : ℚ) :
    Except Unit Resultado :=
  puntoFijoLoop g tol maxIter 0 x0 none [x0] []

/-!
The convergence analyzer (`analizar_convergencia`, lines 277-338) does raw
float arithmetic on the stored error history, where `inf` entries, `nan`
intermediates (`inf/inf`) and raising operations (`x/0.0`, `math.log` of a
non-positive number) are all reachable, so its embedding works on a
four-constructor float model `PyF`. The finite value of `math.log` is not
rational; the analyzer is therefore parameterized by an oracle
`L : ℚ → ℚ` giving the logarithm of a positive finite float, while the
raising/non-finite behavior of `math.log` is modelled exactly. -/

/-- Python float values reachable inside the analyzer: `nan`, the two
infinities, or a finite value. -/
inductive PyF where
  | nan : PyF
  | pinf : PyF
  | ninf : PyF
  | fin : ℚ → PyF
deriving DecidableEq, Repr

/-- View a stored history entry (`none` = `inf`) as a `PyF`. -/
def toPyF : Option ℚ → PyF
  | none => .pinf
  | some q => .fin q

/-- Python `<` on floats (`nan` compares false with everything). -/
def pylt : PyF → PyF → Bool
  | .nan, _ => false
  | _, .nan => false
  | .fin a, .fin b => decide (a < b)
  | .pinf, _ => false
  | _, .pinf => true
  | .ninf, .ninf => false
  | .ninf, _ => true
  | _, .ninf => false

/-- Python `>` on floats. -/
def pygt (a b : PyF) : Bool := pylt b a

/-- Python truthiness of a float (`0.0` is falsy, `nan`/`inf` truthy). -/
def pytruthy : PyF → Bool
  | .fin q => decide (q ≠ 0)
  | _ => true

/-- Python float addition (used by `np.mean`). -/
def pyadd : PyF → PyF → PyF
  | .nan, _ => .nan
  | _, .nan => .nan
  | .pinf, .ninf => .nan
  | .ninf, .pinf => .nan
  | .pinf, _ => .pinf
  | _, .pinf => .pinf
  | .ninf, _ => .ninf
  | _, .ninf => .ninf
  | .fin a, .fin b => .fin (a + b)

/-- Value of a Python float division whose divisor is not zero. -/
def pydivAux : PyF → PyF → PyF
  | .nan, _ => .nan
  | _, .nan => .nan
  | .pinf, .pinf => .nan
  | .pinf, .ninf => .nan
  | .ninf, .pinf => .nan
  | .ninf, .ninf => .nan
  | .pinf, .fin b => if 0 < b then .pinf else .ninf
  | .ninf, .fin b => if 0 < b then .ninf else .pinf
  | .fin _, .pinf => .fin 0
  | .fin _, .ninf => .fin 0
  | .fin a, .fin b => .fin (a / b)

/-- Python float division: raises `ZeroDivisionError` exactly when the
divisor is `0.0`, otherwise yields `pydivAux`. -/
def pydiv (a b : PyF) : Except Unit PyF :=
  if b = .fin 0 then .error () else .ok (pydivAux a b)

/-- `math.log`: raises `ValueError` on a non-positive finite float and on
`-inf`; `log(inf) = inf`, `log(nan) = nan`; on a positive finite value the
oracle `L` supplies the (finite) result. -/
def pylog (L : ℚ → ℚ) : PyF → Except Unit PyF
  | .nan => .ok .nan
  | .pinf => .ok .pinf
  | .ninf => .error ()
  | .fin q => if 0 < q then .ok (.fin (L q)) else .error ()

/-- Sum of a list of Python floats. -/
def pysum (l : List PyF) : PyF := l.foldl pyadd (.fin 0)

/-- `np.mean` of a list of Python floats (the divisor `len(l)` is nonzero
whenever the list is nonempty; `np.mean([])` is `nan`). -/
def pymean (l : List PyF) : PyF :=
  if l.isEmpty then .nan else pydivAux (pysum l) (.fin l.length)

/-- The `for i in range(1, len(errores) - 1)` loop of lines 301-304, as a
sliding window over `(errores[i-1], errores[i], errores[i+1])`: when all
three are `> 0`, compute `log(e[i+1]/e[i]) / log(e[i]/e[i-1])` and collect
it; any raise aborts the whole loop (it is caught by the enclosing
`except`). -/
def ratiosAux (L : ℚ → ℚ) : PyF → PyF → List PyF → Except Unit (List PyF)
  | _, _, [] => .ok []
  | a, b, c :: rest =>
    if pygt b (.fin 0) && pygt c (.fin 0) && pygt a (.fin 0) then
      match pydiv c b with
      | .error e => .error e
      | .ok r1 =>
        match pylog L r1 with
        | .error e => .error e
        | .ok l1 =>
          match pydiv b a with
          | .error e => .error e
          | .ok r2 =>
            match pylog L r2 with
            | .error e => .error e
            | .ok l2 =>
              match pydiv l1 l2 with
              | .error e => .error e
              | .ok ratio =>
                match ratiosAux L b c rest with
                | .error e => .error e
                | .ok tail => .ok (ratio :: tail)
    else ratiosAux L b c rest

/-- All order-estimation ratios of an error list. -/
def computeRatios (L : ℚ → ℚ) : List PyF → Except Unit (List PyF)
  | a :: b :: rest => ratiosAux L a b rest
  | _ => .ok []

/-- `errores[-1] / errores[-2] if len(errores) >= 2 else None`
(lines 319 and 325). -/
def factorCalc (errores : List PyF) : Except Unit (Option PyF) :=
  match errores.reverse with
  | last :: prev :: _ =>
    match pydiv last prev with
    | .error e => .error e
    | .ok v => .ok (some v)
  | _ => .ok none

/-- The result dictionary of the analyzer. -/
structure Analisis where
  tipo_convergencia : String
  orden_convergencia : Option PyF
  factor_convergencia : Option PyF
deriving DecidableEq, Repr

/-- Body of the `try` block (lines 298-320): compute the ratios; when the
list is nonempty classify by the mean order and return (`some`), otherwise
fall through (`none`); an `Except.error` is a raised exception, to be
swallowed by the `except: pass`. -/
def tryOrden (L : ℚ → ℚ) (errores : List PyF) :
    Except Unit (Option Analisis) :=
  match computeRatios L errores with
  | .error e => .error e
  | .ok ratios =>
    if ratios.isEmpty then .ok none
    else
      let orden := pymean ratios
      let tipo := if pylt orden (.fin (3 / 2)) then "Lineal"
                  else if pylt orden (.fin (5 / 2)) then "Cuadrática"
                  else "Superlineal"
      match factorCalc errores with
      | .error e => .error e
      | .ok factor =>
        .ok { tipo_convergencia := tipo, orden_convergencia := some orden,
              factor_convergencia := factor : Analisis }

/-- Python truthiness of the optional coarse factor. -/
def factorTruthy : Option PyF → Bool
  | none => false
  | some v => pytruthy v

/-- `factor and factor < q` for the coarse classification. -/
def factorLT (factor : Option PyF) (q : ℚ) : Bool :=
  match factor with
  | none => false
  | some v => pytruthy v && pylt v (.fin q)

/-- `MetodosNumericos.analizar_convergencia` (lines 277-338).  The guard
checks `not convergencia or len(historial_error) < 2`; otherwise the first
history entry is dropped, the `try` block runs when at least 3 errors
remain (its raises are caught), and the coarse branch recomputes the
factor `errores[-1]/errores[-2]` outside any `try`, where a raise
propagates to the caller. -/
def analizar_convergencia (L : ℚ → ℚ) (r : Resultado) :
    Except Unit Analisis :=
  if r.convergencia = false ∨ r.historial_error.length < 2 then
    .ok { tipo_convergencia := "No convergente", orden_convergencia := none,
          factor_convergencia := none }
  else
    let errores := (r.historial_error.map toPyF).tail
    let afterTry : Option Analisis :=
      if 3 ≤ errores.length then
        match tryOrden L errores with
        | .ok (some a) => some a
        | _ => none
      else none
    match afterTry with
    | some a => .ok a
    | none =>
      match factorCalc errores with
      | .error e => .error e
      | .ok factor =>
        let tipo := if factorLT factor (1 / 10) then "Rápida"
                    else if factorLT factor (1 / 2) then "Moderada"
                    else "Lenta"
        .ok { tipo_convergencia := tipo, orden_convergencia := none,
              factor_convergencia := factor }

/-- `true` exactly when the analyzer call returned normally
(no exception escaped). -/
def okB : Except Unit Analisis → Bool
  | .ok _ => true
  | .error _ => false

/-- The uncaught raise site of the analyzer is the coarse factor division;
this decidable side condition says its divisor (the second-to-last usable
error) is not the float `0.0`. -/
def coarseSafeB (r : Resultado) : Bool :=
  match ((r.historial_error.map toPyF).tail).reverse with
  | _ :: prev :: _ => decide (prev ≠ PyF.fin 0)
  | _ => true

/-- The precondition-failure dictionary of `biseccion` (lines 35-43). -/
def precondRes : Resultado :=
  { raiz := none, iteraciones := 0, convergencia := false, error := none,
    historial_x := [], historial_error := [],
    mensaje := "No se garantiza la existencia de raíz en el intervalo" }

/-- Structural facts that hold of every dictionary the bisection loop can
return: histories of equal length, one error entry per completed
iteration, the `inf` sentinel as first error entry, the
`finalError = inf` characterization, a present root, and a non-precondition
message. -/
def ResConcl (r : Resultado) : Prop :=
  r.historial_x.length = r.historial_error.length ∧
  r.historial_error.length = r.iteraciones ∧
  (r.historial_error ≠ [] → r.historial_error.head? = some none) ∧
  (r.error = none ↔ (r.convergencia = false ∧
    ∀ e ∈ r.historial_error, e = none)) ∧
  (∃ q, r.raiz = some q) ∧
  r.mensaje ≠ "No se garantiza la existencia de raíz en el intervalo"

/-- Structural facts that hold of every dictionary `newton_raphson` can
return for seed `x0`. -/
def NewtonConcl (x0 : ℚ) (r : Resultado) : Prop :=
  r.historial_x.length = r.historial_error.length + 1 ∧
  r.historial_error.length = r.iteraciones ∧
  r.historial_x.head? = some x0 ∧
  (r.error = none ↔ (r.convergencia = false ∧
    (r.historial_error = [] ∨
     r.mensaje = "Derivada muy pequeña - posible punto crítico"))) ∧
  (∃ q, r.raiz = some q) ∧
  (r.iteraciones = 0 ∧
     r.mensaje = "Derivada muy pequeña - posible punto crítico" →
   r.raiz = some x0)

/-- Structural facts that hold of every dictionary `punto_fijo` can return
for seed `x0`. -/
def PFConcl (x0 : ℚ) (r : Resultado) : Prop :=
  r.historial_x.length = r.historial_error.length + 1 ∧
  r.historial_error.length = r.iteraciones ∧
  r.historial_x.head? = some x0 ∧
  (r.error = none ↔ (r.convergencia = false ∧
    (r.historial_error = [] ∨ r.mensaje = "Método divergente"))) ∧
  (∃ q, r.raiz = some q) ∧
  (r.mensaje = "Método divergente" → r.raiz = r.historial_x.getLast?)

/-- Decidable equality on `Except`, so concrete solver runs can be checked
by `decide`. -/
instance {ε α : Type} [DecidableEq ε] [DecidableEq α] :
    DecidableEq (Except ε α) := fun x y =>
  match x, y with
  | .error a, .error b =>
    if h : a = b then .isTrue (by rw [h])
    else .isFalse (fun hh => h (Except.error.inj hh))
  | .ok a, .ok b =>
    if h : a = b then .isTrue (by rw [h])
    else .isFalse (fun hh => h (Except.ok.inj hh))
  | .error _, .ok _ => .isFalse (fun hh => Except.noConfusion hh)
  | .ok _, .error _ => .isFalse (fun hh => Except.noConfusion hh)

/-! ### Helper lemmas -/

theorem errLE_of_not_errGT {e : Option ℚ} {t : ℚ} (h : errGT e t = false) :
    errLE e t = true := by
  cases e with
  | none => simp [errGT] at h
  | some q =>
    simp only [errGT, decide_eq_false_iff_not, not_lt] at h
    simpa [errLE] using h

theorem biseccionLoop_stop (f : Func) (tol : ℚ) (fuel iter : ℕ) (a b xant : ℚ)
    (err : Option ℚ) (hx : List ℚ) (he : List (Option ℚ))
    (h : errGT err tol = false) :
    biseccionLoop f tol fuel iter a b xant err hx he =
      .ok (finalRes tol a b iter err hx he) := by
  cases fuel <;> simp [biseccionLoop, h]

theorem newtonLoop_stop (f fp : Func) (tol : ℚ) (fuel iter : ℕ) (x : ℚ)
    (err : Option ℚ) (hx : List ℚ) (he : List (Option ℚ))
    (h : errGT err tol = false) :
    newtonLoop f fp tol fuel iter x err hx he =
      .ok (newtonFinal tol x iter err hx he) := by
  cases fuel <;> simp [newtonLoop, h]

theorem puntoFijoLoop_stop (g : Func) (tol : ℚ) (fuel iter : ℕ) (x : ℚ)
    (err : Option ℚ) (hx : List ℚ) (he : List (Option ℚ))
    (h : errGT err tol = false) :
    puntoFijoLoop g tol fuel iter x err hx he =
      .ok (pfFinal tol x iter err hx he) := by
  cases fuel <;> simp [puntoFijoLoop, h]

theorem factorCalc_ok (E : List PyF)
    (h : ∀ last prev rest, E.reverse = last :: prev :: rest → prev ≠ PyF.fin 0) :
    ∃ v, factorCalc E = .ok v := by
  unfold factorCalc
  cases hrev : E.reverse with
  | nil => exact ⟨none, rfl⟩
  | cons last rest =>
    cases rest with
    | nil => exact ⟨none, rfl⟩
    | cons prev rest2 =>
      have hne := h last prev rest2 hrev
      refine ⟨some (pydivAux last prev), ?_⟩
      simp [pydiv, hne]

theorem finalRes_concl (tol a b : ℚ) (iter : ℕ) (err : Option ℚ)
    (hx : List ℚ) (he : List (Option ℚ))
    (hlen : hx.length = he.length) (hlei : he.length = iter)
    (hhead : he ≠ [] → he.head? = some none)
    (hiff : err = none ↔ ∀ e ∈ he, e = none) :
    ResConcl (finalRes tol a b iter err hx he) := by
  refine ⟨hlen, hlei, hhead, ?_, ⟨_, rfl⟩, ?_⟩
  · simp only [finalRes]
    constructor
    · intro hE
      refine ⟨?_, hiff.mp hE⟩
      rw [hE]
      rfl
    · rintro ⟨-, hall⟩
      exact hiff.mpr hall
  · simp only [finalRes]
    split <;> simp

theorem biseccionLoop_master (f : Func) (tol : ℚ) :
    ∀ (fuel iter : ℕ) (a b xant : ℚ) (err : Option ℚ)
      (hx : List ℚ) (he : List (Option ℚ)) (r : Resultado),
      biseccionLoop f tol fuel iter a b xant err hx he = .ok r →
      hx.length = he.length →
      he.length = iter →
      (he ≠ [] → he.head? = some none) →
      (err = none ↔ ∀ e ∈ he, e = none) →
      (iter = 0 → err = none) →
      ResConcl r := by
  intro fuel
  induction fuel with
  | zero =>
    intro iter a b xant err hx he r hrun hlen hlei hhead hiff h0
    rw [biseccionLoop] at hrun
    injection hrun with hr
    subst hr
    exact finalRes_concl tol a b iter err hx he hlen hlei hhead hiff
  | succ fuel ih =>
    intro iter a b xant err hx he r hrun hlen hlei hhead hiff h0
    by_cases hgt : errGT err tol = true
    · rw [biseccionLoop, if_pos hgt] at hrun
      dsimp only at hrun
      -- invariant bookkeeping for the appended histories
      set c := (a + b) / 2 with hc
      set err2 := if 0 < iter then some |c - xant| else err with herr2
      have hlen2 : (hx ++ [c]).length = (he ++ [err2]).length := by
        simp [hlen]
      have hlei2 : (he ++ [err2]).length = iter + 1 := by
        simp [hlei]
      have hhead2 : he ++ [err2] ≠ [] → (he ++ [err2]).head? = some none := by
        intro _
        cases he with
        | nil =>
          have hi0 : iter = 0 := by simpa using hlei.symm
          have hE2 : err2 = none := by
            rw [herr2, hi0]
            simp [h0 hi0]
          simp [hE2]
        | cons h t =>
          have hh := hhead (by simp)
          simpa using hh
      have hiff2 : err2 = none ↔ ∀ e ∈ he ++ [err2], e = none := by
        rcases Nat.eq_zero_or_pos iter with hi0 | hipos
        · have hE := h0 hi0
          have hhe : he = [] := List.eq_nil_of_length_eq_zero (by omega)
          have hE2 : err2 = none := by
            rw [herr2, if_neg (by omega)]
            exact hE
          simp [hhe, hE2]
        · have hE2 : err2 = some |c - xant| := by
            rw [herr2, if_pos hipos]
          constructor
          · intro hcontra
            rw [hE2] at hcontra
            cases hcontra
          · intro hall
            have := hall err2 (by simp)
            rw [hE2] at this
            cases this
      cases hfc : f c with
      | error e =>
        rw [hfc] at hrun
        cases hrun
      | ok fc =>
        rw [hfc] at hrun
        dsimp only at hrun
        by_cases hfctol : |fc| < tol
        · rw [if_pos hfctol] at hrun
          injection hrun with hr
          subst hr
          refine ⟨hlen2, hlei2, hhead2, by simp, ⟨_, rfl⟩, ?_⟩
          show ("Convergencia exitosa" : String) ≠
            "No se garantiza la existencia de raíz en el intervalo"
          decide
        · rw [if_neg hfctol] at hrun
          cases hfa : f a with
          | error e =>
            rw [hfa] at hrun
            cases hrun
          | ok fa =>
            rw [hfa] at hrun
            dsimp only at hrun
            by_cases hsign : fa * fc < 0
            · rw [if_pos hsign] at hrun
              exact ih _ _ _ _ _ _ _ _ hrun hlen2 hlei2 hhead2 hiff2
                (by omega)
            · rw [if_neg hsign] at hrun
              exact ih _ _ _ _ _ _ _ _ hrun hlen2 hlei2 hhead2 hiff2
                (by omega)
    · rw [biseccionLoop, if_neg hgt] at hrun
      injection hrun with hr
      subst hr
      exact finalRes_concl tol a b iter err hx he hlen hlei hhead hiff

theorem biseccion_master (tol : ℚ) (maxIter : ℕ) (f : Func) (a b : ℚ)
    (r : Resultado) (h : biseccion tol maxIter f a b = .ok r) :
    r = precondRes ∨ ResConcl r := by
  rw [biseccion] at h
  cases hfa : f a with
  | error e => rw [hfa] at h; cases h
  | ok fa =>
    rw [hfa] at h
    dsimp only at h
    cases hfb : f b with
    | error e => rw [hfb] at h; cases h
    | ok fb =>
      rw [hfb] at h
      dsimp only at h
      by_cases hge : 0 ≤ fa * fb
      · rw [if_pos hge] at h
        injection h with hr
        subst hr
        left
        rfl
      · rw [if_neg hge] at h
        right
        refine biseccionLoop_master f tol maxIter 0 a b 0 none [] [] r h
          rfl rfl (by simp) (by simp) (fun _ => rfl)

theorem getLast_concat_eq (l : List ℚ) (a : ℚ) :
    (l ++ [a]).getLast? = some a := by
  rw [List.getLast?_append_cons]
  rfl

theorem newtonFinal_concl (tol x x0 : ℚ) (iter : ℕ) (err : Option ℚ)
    (hx : List ℚ) (he : List (Option ℚ))
    (hlen : hx.length = he.length + 1) (hlei : he.length = iter)
    (hhead : hx.head? = some x0) (hiff : err = none ↔ he = []) :
    NewtonConcl x0 (newtonFinal tol x iter err hx he) := by
  refine ⟨hlen, hlei, hhead, ?_, ⟨_, rfl⟩, ?_⟩
  · simp only [newtonFinal]
    constructor
    · intro hE
      refine ⟨?_, Or.inl (hiff.mp hE)⟩
      rw [hE]
      rfl
    · rintro ⟨-, hdisj⟩
      rcases hdisj with hnil | hmsg
      · exact hiff.mpr hnil
      · exfalso
        revert hmsg
        split <;> decide
  · rintro ⟨-, hmsg⟩
    exfalso
    revert hmsg
    simp only [newtonFinal]
    split <;> decide

theorem newtonLoop_master (f fp : Func) (tol x0 : ℚ) :
    ∀ (fuel iter : ℕ) (x : ℚ) (err : Option ℚ)
      (hx : List ℚ) (he : List (Option ℚ)) (r : Resultado),
      newtonLoop f fp tol fuel iter x err hx he = .ok r →
      hx.length = he.length + 1 →
      he.length = iter →
      hx.head? = some x0 →
      (err = none ↔ he = []) →
      (iter = 0 → x = x0) →
      NewtonConcl x0 r := by
  intro fuel
  induction fuel with
  | zero =>
    intro iter x err hx he r hrun hlen hlei hhead hiff h0
    rw [newtonLoop] at hrun
    injection hrun with hr
    subst hr
    exact newtonFinal_concl tol x x0 iter err hx he hlen hlei hhead hiff
  | succ fuel ih =>
    intro iter x err hx he r hrun hlen hlei hhead hiff h0
    by_cases hgt : errGT err tol = true
    · rw [newtonLoop, if_pos hgt] at hrun
      dsimp only at hrun
      cases hfx : f x with
      | error e => rw [hfx] at hrun; cases hrun
      | ok fx =>
        rw [hfx] at hrun
        dsimp only at hrun
        cases hfpx : fp x with
        | error e => rw [hfpx] at hrun; cases hrun
        | ok fpx =>
          rw [hfpx] at hrun
          dsimp only at hrun
          by_cases hsmall : |fpx| < 1 / 10 ^ 15
          · rw [if_pos hsmall] at hrun
            injection hrun with hr
            subst hr
            refine ⟨hlen, hlei, hhead, ?_, ⟨_, rfl⟩, ?_⟩
            · constructor
              · intro _
                exact ⟨rfl, Or.inr rfl⟩
              · intro _
                rfl
            · rintro ⟨hiter, -⟩
              exact congrArg some (h0 hiter)
          · rw [if_neg hsmall] at hrun
            set xn := x - fx / fpx with hxn
            have hlen2 : (hx ++ [xn]).length =
                (he ++ [some |xn - x|]).length + 1 := by simp [hlen]
            have hlei2 : (he ++ [some |xn - x|]).length = iter + 1 := by
              simp [hlei]
            have hhead2 : (hx ++ [xn]).head? = some x0 := by
              cases hx with
              | nil => simp at hlen
              | cons hfst t => simpa using hhead
            have hiff2 : (some |xn - x| = none) ↔ he ++ [some |xn - x|] = [] := by
              simp
            cases hfxn : f xn with
            | error e => rw [hfxn] at hrun; cases hrun
            | ok fxn =>
              rw [hfxn] at hrun
              dsimp only at hrun
              by_cases hcv : |fxn| < tol
              · rw [if_pos hcv] at hrun
                injection hrun with hr
                subst hr
                refine ⟨hlen2, hlei2, hhead2, by simp, ⟨_, rfl⟩, ?_⟩
                rintro ⟨-, hmsg⟩
                exact absurd hmsg (show ("Convergencia exitosa" : String) ≠
                  "Derivada muy pequeña - posible punto crítico" by decide)
              · rw [if_neg hcv] at hrun
                exact ih _ _ _ _ _ _ hrun hlen2 hlei2 hhead2 hiff2 (by omega)
    · rw [newtonLoop, if_neg hgt] at hrun
      injection hrun with hr
      subst hr
      exact newtonFinal_concl tol x x0 iter err hx he hlen hlei hhead hiff

theorem newton_master (tol : ℚ) (maxIter : ℕ) (f fp : Func) (x0 : ℚ)
    (r : Resultado) (h : newton_raphson tol maxIter f fp x0 = .ok r) :
    NewtonConcl x0 r :=
  newtonLoop_master f fp tol x0 maxIter 0 x0 none [x0] [] r h rfl rfl rfl
    (by simp) (fun _ => rfl)

theorem pfFinal_concl (tol x x0 : ℚ) (iter : ℕ) (err : Option ℚ)
    (hx : List ℚ) (he : List (Option ℚ))
    (hlen : hx.length = he.length + 1) (hlei : he.length = iter)
    (hhead : hx.head? = some x0) (hiff : err = none ↔ he = []) :
    PFConcl x0 (pfFinal tol x iter err hx he) := by
  refine ⟨hlen, hlei, hhead, ?_, ⟨_, rfl⟩, ?_⟩
  · simp only [pfFinal]
    constructor
    · intro hE
      refine ⟨?_, Or.inl (hiff.mp hE)⟩
      rw [hE]
      rfl
    · rintro ⟨-, hdisj⟩
      rcases hdisj with hnil | hmsg
      · exact hiff.mpr hnil
      · exfalso
        revert hmsg
        split <;> decide
  · intro hmsg
    exfalso
    revert hmsg
    simp only [pfFinal]
    split <;> decide

theorem puntoFijoLoop_master (g : Func) (tol x0 : ℚ) :
    ∀ (fuel iter : ℕ) (x : ℚ) (err : Option ℚ)
      (hx : List ℚ) (he : List (Option ℚ)) (r : Resultado),
      puntoFijoLoop g tol fuel iter x err hx he = .ok r →
      hx.length = he.length + 1 →
      he.length = iter →
      hx.head? = some x0 →
      (err = none ↔ he = []) →
      PFConcl x0 r := by
  intro fuel
  induction fuel with
  | zero =>
    intro iter x err hx he r hrun hlen hlei hhead hiff
    rw [puntoFijoLoop] at hrun
    injection hrun with hr
    subst hr
    exact pfFinal_concl tol x x0 iter err hx he hlen hlei hhead hiff
  | succ fuel ih =>
    intro iter x err hx he r hrun hlen hlei hhead hiff
    by_cases hgt : errGT err tol = true
    · rw [puntoFijoLoop, if_pos hgt] at hrun
      dsimp only at hrun
      cases hgx : g x with
      | error e => rw [hgx] at hrun; cases hrun
      | ok xn =>
        rw [hgx] at hrun
        dsimp only at hrun
        have hlen2 : (hx ++ [xn]).length =
            (he ++ [some |xn - x|]).length + 1 := by simp [hlen]
        have hlei2 : (he ++ [some |xn - x|]).length = iter + 1 := by
          simp [hlei]
        have hhead2 : (hx ++ [xn]).head? = some x0 := by
          cases hx with
          | nil => simp at hlen
          | cons hfst t => simpa using hhead
        have hiff2 : (some |xn - x| = none) ↔ he ++ [some |xn - x|] = [] := by
          simp
        by_cases hcv : |xn - x| < tol
        · rw [if_pos hcv] at hrun
          injection hrun with hr
          subst hr
          refine ⟨hlen2, hlei2, hhead2, by simp, ⟨_, rfl⟩, ?_⟩
          intro hmsg
          exact absurd hmsg (show ("Convergencia exitosa" : String) ≠
            "Método divergente" by decide)
        · rw [if_neg hcv] at hrun
          by_cases hdiv : (10 : ℚ) ^ 10 < |xn|
          · rw [if_pos hdiv] at hrun
            injection hrun with hr
            subst hr
            refine ⟨hlen2, hlei2, hhead2, ?_, ⟨_, rfl⟩, ?_⟩
            · constructor
              · intro _
                exact ⟨rfl, Or.inr rfl⟩
              · intro _
                rfl
            · intro _
              exact (getLast_concat_eq hx xn).symm
          · rw [if_neg hdiv] at hrun
            exact ih _ _ _ _ _ _ hrun hlen2 hlei2 hhead2 hiff2
    · rw [puntoFijoLoop, if_neg hgt] at hrun
      injection hrun with hr
      subst hr
      exact pfFinal_concl tol x x0 iter err hx he hlen hlei hhead hiff

theorem pf_master (tol : ℚ) (maxIter : ℕ) (g : Func) (x0 : ℚ)
    (r : Resultado) (h : punto_fijo tol maxIter g x0 = .ok r) :
    PFConcl x0 r :=
  puntoFijoLoop_master g tol x0 maxIter 0 x0 none [x0] [] r h rfl rfl rfl
    (by simp)

theorem biseccionLoop_conv (f : ℚ → ℚ) (tol L : ℚ) (maxIter : ℕ)
    (htol : 0 < tol) (hLt : tol < L) (hL : L ≤ tol * 2 ^ (maxIter - 1)) :
    ∀ (fuel iter : ℕ) (a b xant : ℚ) (err : Option ℚ)
      (hx : List ℚ) (he : List (Option ℚ)),
      fuel + iter = maxIter →
      b - a = L / 2 ^ iter →
      (iter ≤ 1 → err = none) →
      (2 ≤ iter → err = some (b - a)) →
      (1 ≤ iter → xant = a ∨ xant = b) →
      ∃ r, biseccionLoop (tl f) tol fuel iter a b xant err hx he = .ok r ∧
           r.convergencia = true := by
  have hL0 : (0 : ℚ) < L := htol.trans hLt
  have hM2 : 2 ≤ maxIter := by
    by_contra hc
    have h1 : maxIter - 1 = 0 := by omega
    rw [h1, pow_zero, mul_one] at hL
    linarith
  intro fuel
  induction fuel with
  | zero =>
    intro iter a b xant err hx he hfi hba h01 h2 hxe
    have hiter : iter = maxIter := by omega
    have herr : err = some (b - a) := h2 (by omega)
    have hle : b - a ≤ tol := by
      have hpow : (0 : ℚ) < 2 ^ maxIter := by positivity
      rw [hba, hiter, div_le_iff₀ hpow]
      calc L ≤ tol * 2 ^ (maxIter - 1) := hL
        _ ≤ tol * 2 ^ maxIter := by
            have := pow_le_pow_right₀ (by norm_num : (1 : ℚ) ≤ 2)
              (Nat.sub_le maxIter 1)
            nlinarith
    refine ⟨_, rfl, ?_⟩
    show errLE err tol = true
    rw [herr]
    simpa [errLE] using hle
  | succ fuel ih =>
    intro iter a b xant err hx he hfi hba h01 h2 hxe
    by_cases hgt : errGT err tol = true
    · rw [biseccionLoop, if_pos hgt]
      dsimp only [tl]
      by_cases hfc : |f ((a + b) / 2)| < tol
      · rw [if_pos hfc]
        exact ⟨_, rfl, rfl⟩
      · rw [if_neg hfc]
        have hba0 : (0 : ℚ) < b - a := by
          rw [hba]
          positivity
        have hhalf : (0 : ℚ) < (b - a) / 2 := by linarith
        have hca : (a + b) / 2 - a = (b - a) / 2 := by ring
        have hbc : b - (a + b) / 2 = (b - a) / 2 := by ring
        have hlen2 : (b - a) / 2 = L / 2 ^ (iter + 1) := by
          rw [hba, pow_succ]
          ring
        have herr2eq : 1 ≤ iter →
            (if 0 < iter then some |(a + b) / 2 - xant| else err) =
              some ((b - a) / 2) := by
          intro h1
          rw [if_pos (by omega)]
          congr 1
          rcases hxe h1 with hxa | hxb
          · rw [hxa, hca]
            exact abs_of_pos hhalf
          · rw [hxb, abs_sub_comm, hbc]
            exact abs_of_pos hhalf
        have herr2none : iter = 0 →
            (if 0 < iter then some |(a + b) / 2 - xant| else err) = none := by
          intro h1
          rw [if_neg (by omega)]
          exact h01 (by omega)
        by_cases hsign : f a * f ((a + b) / 2) < 0
        · rw [if_pos hsign]
          refine ih (iter + 1) a ((a + b) / 2) ((a + b) / 2) _ _ _
            (by omega) (by rw [hca, hlen2]) ?_ ?_ (fun _ => Or.inr rfl)
          · intro h1
            exact herr2none (by omega)
          · intro h1
            rw [herr2eq (by omega), hca]
        · rw [if_neg hsign]
          refine ih (iter + 1) ((a + b) / 2) b ((a + b) / 2) _ _ _
            (by omega) (by rw [hbc, hlen2]) ?_ ?_ (fun _ => Or.inl rfl)
          · intro h1
            exact herr2none (by omega)
          · intro h1
            rw [herr2eq (by omega), hbc]
    · have hf : errGT err tol = false := by
        revert hgt
        cases errGT err tol <;> simp
      refine ⟨_, biseccionLoop_stop (tl f) tol (fuel + 1) iter a b xant err
        hx he hf, ?_⟩
      show errLE err tol = true
      exact errLE_of_not_errGT hf

/-! ### Claims -/

/-- Claim C1, counterexample: with a supplied function whose evaluation
raises, each of the three solvers propagates the exception
(`Except.error`) to the caller instead of returning a result value with
`converged = false`. -/
theorem C1_counterexample :
    biseccion 1 10 (fun _ => .error ()) 0 1 = .error () ∧
    newton_raphson 1 10 (fun _ => .error ()) (fun _ => .error ()) 0 = .error () ∧
    punto_fijo 1 10 (fun _ => .error ()) 0 = .error () :=
  ⟨rfl, rfl, rfl⟩

/-- Claim C1, amended: the solvers do not catch exceptions raised by the
supplied function, derivative, or self-map; an evaluation fault propagates
to the caller.  In particular `biseccion` propagates a raise from `f(a)`
(its very first evaluation), and `newton_raphson` / `punto_fijo` propagate
a raise from the first evaluation at the seed whenever the loop runs at
all. -/
theorem C1_amended_thm :
    (∀ (tol : ℚ) (maxIter : ℕ) (f : Func) (a b : ℚ) (e : Unit),
       f a = .error e → biseccion tol maxIter f a b = .error e) ∧
    (∀ (tol : ℚ) (maxIter : ℕ) (f fp : Func) (x0 : ℚ) (e : Unit),
       1 ≤ maxIter → f x0 = .error e →
       newton_raphson tol maxIter f fp x0 = .error e) ∧
    (∀ (tol : ℚ) (maxIter : ℕ) (g : Func) (x0 : ℚ) (e : Unit),
       1 ≤ maxIter → g x0 = .error e →
       punto_fijo tol maxIter g x0 = .error e) := by
  refine ⟨?_, ?_, ?_⟩
  · intro tol maxIter f a b e hfa
    simp [biseccion, hfa]
  · intro tol maxIter f fp x0 e hmax hf
    obtain ⟨m, rfl⟩ := Nat.exists_eq_add_of_le' hmax
    simp [newton_raphson, newtonLoop, errGT, hf]
  · intro tol maxIter g x0 e hmax hg
    obtain ⟨m, rfl⟩ := Nat.exists_eq_add_of_le' hmax
    simp [punto_fijo, puntoFijoLoop, errGT, hg]

/-- Claim C1 witness: concrete instantiation of the amended theorem. -/
theorem C1_witness :
    biseccion 1 7 (fun _ => .error ()) 0 2 = .error () ∧
    newton_raphson 1 7 (fun _ => .error ()) (fun _ => .error ()) 3 = .error () ∧
    punto_fijo 1 7 (fun _ => .error ()) 3 = .error () :=
  ⟨C1_amended_thm.1 1 7 _ 0 2 () rfl,
   C1_amended_thm.2.1 1 7 _ _ 3 () (by norm_num) rfl,
   C1_amended_thm.2.2 1 7 _ 3 () (by norm_num) rfl⟩

/-- Claim C7 (confirmed): when both endpoint evaluations succeed and
`f(a) * f(b) ≥ 0`, `biseccion` returns immediately — zero iterations,
`root = None`, `converged = false`, `finalError = inf`, empty histories,
and the precondition-failed message. -/
theorem C7_thm (tol : ℚ) (maxIter : ℕ) (f : Func) (a b fa fb : ℚ)
    (ha : f a = .ok fa) (hb : f b = .ok fb) (hge : 0 ≤ fa * fb) :
    biseccion tol maxIter f a b =
      .ok { raiz := none, iteraciones := 0, convergencia := false,
            error := none, historial_x := [], historial_error := [],
            mensaje := "No se garantiza la existencia de raíz en el intervalo" } := by
  simp [biseccion, ha, hb, hge]

/-- Claim C7 witness: `f(x) = x + 1` on `[0, 1]` has `f(0)*f(1) = 2 ≥ 0`. -/
theorem C7_witness :
    biseccion 1 10 (tl fun x => x + 1) 0 1 =
      .ok { raiz := none, iteraciones := 0, convergencia := false,
            error := none, historial_x := [], historial_error := [],
            mensaje := "No se garantiza la existencia de raíz en el intervalo" } :=
  C7_thm 1 10 _ 0 1 1 2 (by norm_num [tl]) (by norm_num [tl]) (by norm_num)

/-- Claim C5, counterexample: an actual bisection run that converges with
a two-entry error history (one entry besides the `inf` sentinel).  The
claim classifies it `NotConvergent`; the analyzer instead returns `Lenta`
(Slow), because the source guard `len(historial_error) < 2` counts the
sentinel entry. -/
theorem C5_counterexample :
    biseccion (1/4) 2 (tl fun x => x - 1/10) 0 1 =
      .ok { raiz := some (1/4), iteraciones := 2, convergencia := true,
            error := some (3/20), historial_x := [1/2, 1/4],
            historial_error := [none, some (1/4)],
            mensaje := "Convergencia exitosa" } ∧
    analizar_convergencia (fun _ => 0)
      { raiz := some (1/4), iteraciones := 2, convergencia := true,
        error := some (3/20), historial_x := [1/2, 1/4],
        historial_error := [none, some (1/4)],
        mensaje := "Convergencia exitosa" } =
      .ok { tipo_convergencia := "Lenta", orden_convergencia := none,
            factor_convergencia := none } ∧
    ("Lenta" : String) ≠ "No convergente" := by
  refine ⟨?_, ?_, by decide⟩
  · norm_num [biseccion, tl, biseccionLoop, errGT, errLE, finalRes, abs_of_nonneg]
  · norm_num [analizar_convergencia, toPyF, factorCalc, factorLT, pytruthy,
      pydiv, pydivAux, pylt]

/-- Claim C5, amended: the analyzer classifies a result `NotConvergent`
(with both numeric fields absent) exactly on the source guard: when the
converged flag is false or the *total* `errorHistory` length — counting
the sentinel first value — is below 2. -/
theorem C5_amended_thm (L : ℚ → ℚ) (r : Resultado)
    (h : r.convergencia = false ∨ r.historial_error.length < 2) :
    analizar_convergencia L r =
      .ok { tipo_convergencia := "No convergente", orden_convergencia := none,
            factor_convergencia := none } := by
  simp only [analizar_convergencia]
  rw [if_pos h]

/-- Claim C5 witness: a non-converged result is classified
`No convergente`. -/
theorem C5_witness :
    analizar_convergencia (fun _ => 0)
      { raiz := none, iteraciones := 0, convergencia := false, error := none,
        historial_x := [], historial_error := [], mensaje := "m" } =
      .ok { tipo_convergencia := "No convergente", orden_convergencia := none,
            factor_convergencia := none } :=
  C5_amended_thm _ _ (Or.inl rfl)

/-- Claim C4, counterexample: on a converged input result whose usable
error list ends in `(0, 1)`, the coarse factor computation
`errores[-1] / errores[-2]` divides by zero *outside* the `try` block and
the `ZeroDivisionError` propagates out of the analyzer. -/
theorem C4_counterexample :
    analizar_convergencia (fun _ => 0)
      { raiz := some 0, iteraciones := 2, convergencia := true,
        error := some 1, historial_x := [],
        historial_error := [none, some 0, some 1],
        mensaje := "Convergencia exitosa" } = .error () := by
  norm_num [analizar_convergencia, toPyF, factorCalc, pydiv]

/-- Claim C4, amended: every arithmetic failure inside the
order-estimation `try` block (division by zero, `log` of a non-positive
ratio, …) is caught and the call falls through to the coarse
classification; the analyzer can only raise at the unprotected coarse
factor division, so it returns normally on every input whose
second-to-last usable error is not the float `0.0`. -/
theorem C4_amended_thm (L : ℚ → ℚ) (r : Resultado)
    (hsafe : coarseSafeB r = true) :
    okB (analizar_convergencia L r) = true := by
  unfold analizar_convergencia
  split
  · rfl
  · dsimp only
    split
    · rfl
    · have hok : ∃ v, factorCalc ((r.historial_error.map toPyF).tail) = .ok v := by
        apply factorCalc_ok
        intro last prev rest hrev
        unfold coarseSafeB at hsafe
        rw [hrev] at hsafe
        simpa using hsafe
      obtain ⟨v, hv⟩ := hok
      rw [hv]
      rfl

/-- Claim C4 witness: the amended theorem applied to a real converged
bisection result. -/
theorem C4_witness :
    okB (analizar_convergencia (fun _ => 0)
      { raiz := some (1/4), iteraciones := 2, convergencia := true,
        error := some (3/20), historial_x := [1/2, 1/4],
        historial_error := [none, some (1/4)],
        mensaje := "Convergencia exitosa" }) = true :=
  C4_amended_thm _ _ (by norm_num [coarseSafeB, toPyF])

/-- Claim C6, counterexample: `f(x) = 100x - 1` on `[0, 1]` with
`tolerance = 2` (tolerance at least the interval length) and
`maxIterations = 1` satisfies every premise of the claim — `a < b`,
`f(a)*f(b) < 0`, and `maxIterations ≥ ceil(log2((b-a)/tolerance)) + 1 = 1`
— yet bisection returns `converged = false`: the single iteration leaves
the error at the `inf` sentinel. -/
theorem C6_counterexample :
    ((0 : ℚ) < 1) ∧
    ((100 * (0 : ℚ) - 1) * (100 * 1 - 1) < 0) ∧
    (Nat.clog 2 (Int.toNat ⌈((1 : ℚ) - 0) / 2⌉) + 1 ≤ 1) ∧
    biseccion 2 1 (tl fun x => 100 * x - 1) 0 1 =
      .ok { raiz := some (1/4), iteraciones := 1, convergencia := false,
            error := none, historial_x := [1/2], historial_error := [none],
            mensaje := "Máximo de iteraciones alcanzado" } := by
  refine ⟨by norm_num, by norm_num, ?_, ?_⟩
  · have h1 : ⌈((1 : ℚ) - 0) / 2⌉ = 1 := by
      rw [Int.ceil_eq_iff]
      push_cast
      norm_num
    rw [h1]
    simp [Nat.clog_one_right]
  · norm_num [biseccion, tl, biseccionLoop, errGT, errLE, finalRes,
      abs_of_nonneg]

/-- Claim C6, amended: for every function `f` (continuity is not needed
for the convergence flag), every interval with `a < b`, sign change
`f(a)*f(b) < 0`, **and tolerance strictly below the interval length**,
bisection returns `converged = true` whenever
`maxIterations ≥ ceil(log2((b-a)/tolerance)) + 1`. -/
theorem C6_amended_thm (f : ℚ → ℚ) (a b tol : ℚ) (maxIter : ℕ)
    (htol : 0 < tol) (hwide : tol < b - a) (hsign : f a * f b < 0)
    (hmax : Nat.clog 2 (Int.toNat ⌈(b - a) / tol⌉) + 1 ≤ maxIter) :
    ∃ r, biseccion tol maxIter (tl f) a b = .ok r ∧
         r.convergencia = true := by
  have hneg : ¬ ((0 : ℚ) ≤ f a * f b) := not_le.mpr hsign
  rw [biseccion]
  dsimp only [tl]
  rw [if_neg hneg]
  have hL : b - a ≤ tol * 2 ^ (maxIter - 1) := by
    have h1 : Nat.clog 2 (Int.toNat ⌈(b - a) / tol⌉) ≤ maxIter - 1 := by
      omega
    have h2 : Int.toNat ⌈(b - a) / tol⌉ ≤ 2 ^ (maxIter - 1) :=
      (Nat.le_pow_iff_clog_le (by norm_num)).mpr h1
    have hq0 : (0 : ℚ) < (b - a) / tol := by
      apply div_pos _ htol
      linarith
    have h3 : (b - a) / tol ≤ (2 : ℚ) ^ (maxIter - 1) := by
      calc (b - a) / tol ≤ (⌈(b - a) / tol⌉ : ℚ) := Int.le_ceil _
        _ = ((Int.toNat ⌈(b - a) / tol⌉ : ℤ) : ℚ) := by
            rw [Int.toNat_of_nonneg (Int.ceil_nonneg hq0.le)]
        _ ≤ (2 : ℚ) ^ (maxIter - 1) := by exact_mod_cast h2
    rw [div_le_iff₀ htol] at h3
    linarith
  exact biseccionLoop_conv f tol (b - a) maxIter htol hwide hL maxIter 0
    a b 0 none [] [] (by omega) (by simp)
    (fun _ => rfl) (fun h => absurd h (by norm_num))
    (fun h => absurd h (by norm_num))

/-- Claim C6 witness: `f(x) = x - 1/2` on `[0, 1]`, tolerance `1/4`,
`maxIterations = 3 = ceil(log2(4)) + 1`. -/
theorem C6_witness :
    ∃ r, biseccion (1/4) 3 (tl fun x => x - 1/2) 0 1 = .ok r ∧
         r.convergencia = true := by
  refine C6_amended_thm (fun x => x - 1/2) 0 1 (1/4) 3 (by norm_num)
    (by norm_num) (by norm_num) ?_
  have h0 : ((1 : ℚ) - 0) / (1/4) = 4 := by norm_num
  have h1 : ⌈(4 : ℚ)⌉ = 4 := by
    rw [Int.ceil_eq_iff]
    push_cast
    norm_num
  rw [h0, h1]
  have h2 : Nat.clog 2 (Int.toNat 4) = 2 := by
    have h4 : (Int.toNat 4) = 2 ^ 2 := by decide
    rw [h4, Nat.clog_pow 2 2 (by norm_num)]
  rw [h2]

/-- Claim C9 (confirmed): every returned dictionary satisfies the exact
history-length relation — `biseccion` returns histories of equal length
whose first error entry is the `inf` sentinel whenever at least one
iteration completed; `newton_raphson` and `punto_fijo` return an x-history
exactly one longer than the error history, starting at the seed. -/
theorem C9_thm :
    (∀ (tol : ℚ) (maxIter : ℕ) (f : Func) (a b : ℚ) (r : Resultado),
       biseccion tol maxIter f a b = .ok r →
       r.historial_x.length = r.historial_error.length ∧
       (1 ≤ r.iteraciones → r.historial_error.head? = some none)) ∧
    (∀ (tol : ℚ) (maxIter : ℕ) (f fp : Func) (x0 : ℚ) (r : Resultado),
       newton_raphson tol maxIter f fp x0 = .ok r →
       r.historial_x.length = r.historial_error.length + 1 ∧
       r.historial_x.head? = some x0) ∧
    (∀ (tol : ℚ) (maxIter : ℕ) (g : Func) (x0 : ℚ) (r : Resultado),
       punto_fijo tol maxIter g x0 = .ok r →
       r.historial_x.length = r.historial_error.length + 1 ∧
       r.historial_x.head? = some x0) := by
  refine ⟨?_, ?_, ?_⟩
  · intro tol maxIter f a b r h
    rcases biseccion_master tol maxIter f a b r h with hpre | hconcl
    · subst hpre
      refine ⟨rfl, ?_⟩
      intro h1
      exact absurd h1 (by decide)
    · obtain ⟨h1, h2, h3, -, -, -⟩ := hconcl
      refine ⟨h1, fun hit => h3 ?_⟩
      intro hnil
      rw [hnil] at h2
      simp at h2
      omega
  · intro tol maxIter f fp x0 r h
    obtain ⟨h1, -, h3, -, -, -⟩ := newton_master tol maxIter f fp x0 r h
    exact ⟨h1, h3⟩
  · intro tol maxIter g x0 r h
    obtain ⟨h1, -, h3, -, -, -⟩ := pf_master tol maxIter g x0 r h
    exact ⟨h1, h3⟩

/-- Claim C9 witness: the fixed-point conjunct at the constant-map run
(histories `[0, 11, 11]` and `[11, 0]`). -/
theorem C9_witness :
    ([0, 11, 11] : List ℚ).length =
      ([some 11, some 0] : List (Option ℚ)).length + 1 ∧
    ([0, 11, 11] : List ℚ).head? = some 0 := by
  have h := C9_thm.2.2 (1/1000000) 5 (tl fun _ => 11) 0
    { raiz := some 11, iteraciones := 2, convergencia := true,
      error := some 0, historial_x := [0, 11, 11],
      historial_error := [some 11, some 0],
      mensaje := "Convergencia exitosa" }
    (by norm_num [punto_fijo, tl, puntoFijoLoop, errGT, errLE, pfFinal,
      abs_of_nonneg])
  exact h

/-- Claim C10 (confirmed): `root` is `None` only in the bisection
precondition-failure return; every other result carries a numeric root.
Newton-Raphson aborting on a near-zero derivative before completing any
iteration reports the seed as root, and the fixed-point divergence return
reports the last (out-of-bounds) iterate — the final x-history entry — as
root. -/
theorem C10_thm :
    (∀ (tol : ℚ) (maxIter : ℕ) (f : Func) (a b : ℚ) (r : Resultado),
       biseccion tol maxIter f a b = .ok r →
       (r.raiz = none ↔
        r.mensaje = "No se garantiza la existencia de raíz en el intervalo")) ∧
    (∀ (tol : ℚ) (maxIter : ℕ) (f fp : Func) (x0 : ℚ) (r : Resultado),
       newton_raphson tol maxIter f fp x0 = .ok r →
       (∃ q, r.raiz = some q) ∧
       (r.iteraciones = 0 ∧
          r.mensaje = "Derivada muy pequeña - posible punto crítico" →
        r.raiz = some x0)) ∧
    (∀ (tol : ℚ) (maxIter : ℕ) (g : Func) (x0 : ℚ) (r : Resultado),
       punto_fijo tol maxIter g x0 = .ok r →
       (∃ q, r.raiz = some q) ∧
       (r.mensaje = "Método divergente" →
        r.raiz = r.historial_x.getLast?)) := by
  refine ⟨?_, ?_, ?_⟩
  · intro tol maxIter f a b r h
    rcases biseccion_master tol maxIter f a b r h with hpre | hconcl
    · subst hpre
      simp [precondRes]
    · obtain ⟨-, -, -, -, ⟨q, hq⟩, hmsg⟩ := hconcl
      constructor
      · intro hnone
        rw [hq] at hnone
        cases hnone
      · intro hm
        exact absurd hm hmsg
  · intro tol maxIter f fp x0 r h
    obtain ⟨-, -, -, -, h5, h6⟩ := newton_master tol maxIter f fp x0 r h
    exact ⟨h5, h6⟩
  · intro tol maxIter g x0 r h
    obtain ⟨-, -, -, -, h5, h6⟩ := pf_master tol maxIter g x0 r h
    exact ⟨h5, h6⟩

/-- Claim C10 witness: Newton with an identically-zero derivative aborts
at iteration 0 and reports the seed `7` as root. -/
theorem C10_witness :
    (∃ q, ({ raiz := some 7, iteraciones := 0, convergencia := false,
             error := none, historial_x := [7], historial_error := [],
             mensaje := "Derivada muy pequeña - posible punto crítico" } :
           Resultado).raiz = some q) ∧
    (({ raiz := some 7, iteraciones := 0, convergencia := false,
        error := none, historial_x := [7], historial_error := [],
        mensaje := "Derivada muy pequeña - posible punto crítico" } :
      Resultado).iteraciones = 0 ∧
     ({ raiz := some 7, iteraciones := 0, convergencia := false,
        error := none, historial_x := [7], historial_error := [],
        mensaje := "Derivada muy pequeña - posible punto crítico" } :
      Resultado).mensaje = "Derivada muy pequeña - posible punto crítico" →
     ({ raiz := some 7, iteraciones := 0, convergencia := false,
        error := none, historial_x := [7], historial_error := [],
        mensaje := "Derivada muy pequeña - posible punto crítico" } :
      Resultado).raiz = some 7) := by
  have h := C10_thm.2.1 1 3 (tl fun _ => 1) (tl fun _ => 0) 7
    { raiz := some 7, iteraciones := 0, convergencia := false,
      error := none, historial_x := [7], historial_error := [],
      mensaje := "Derivada muy pequeña - posible punto crítico" }
    (by norm_num [newton_raphson, tl, newtonLoop, errGT])
  exact h

/-- Claim C3, counterexample: the fixed-point divergence return reports
`finalError = inf` even though a valid numeric error (`|10^11 - 0|`) was
computed in the completed iteration and stored in the error history,
contradicting the claimed "if and only if ... no valid numeric error was
ever computed". -/
theorem C3_counterexample :
    punto_fijo 1 5 (tl fun _ => 10 ^ 11) 0 =
      .ok { raiz := some (10 ^ 11), iteraciones := 1, convergencia := false,
            error := none, historial_x := [0, 10 ^ 11],
            historial_error := [some (10 ^ 11)],
            mensaje := "Método divergente" } ∧
    ¬(((none : Option ℚ) = none) →
       ∀ e ∈ [some ((10 : ℚ) ^ 11)], e = (none : Option ℚ)) := by
  constructor
  · norm_num [punto_fijo, tl, puntoFijoLoop, errGT, errLE, pfFinal,
      abs_of_nonneg]
  · intro h
    have := h rfl (some ((10 : ℚ) ^ 11)) (by simp)
    cases this

/-- Claim C3, amended: `finalError = inf` iff the converged flag is false
and, for bisection, every stored error entry is the `inf` sentinel (none
ever measured); for Newton-Raphson, either no error was measured or the
return is the degenerate-derivative abort (which reports `inf` even after
completed iterations); for fixed-point, either no error was measured or
the return is the divergence abort (likewise reporting `inf`).  In the
remaining cases `finalError` is the last computed error magnitude. -/
theorem C3_amended_thm :
    (∀ (tol : ℚ) (maxIter : ℕ) (f : Func) (a b : ℚ) (r : Resultado),
       biseccion tol maxIter f a b = .ok r →
       (r.error = none ↔ (r.convergencia = false ∧
         ∀ e ∈ r.historial_error, e = none))) ∧
    (∀ (tol : ℚ) (maxIter : ℕ) (f fp : Func) (x0 : ℚ) (r : Resultado),
       newton_raphson tol maxIter f fp x0 = .ok r →
       (r.error = none ↔ (r.convergencia = false ∧
         (r.historial_error = [] ∨
          r.mensaje = "Derivada muy pequeña - posible punto crítico")))) ∧
    (∀ (tol : ℚ) (maxIter : ℕ) (g : Func) (x0 : ℚ) (r : Resultado),
       punto_fijo tol maxIter g x0 = .ok r →
       (r.error = none ↔ (r.convergencia = false ∧
         (r.historial_error = [] ∨ r.mensaje = "Método divergente")))) := by
  refine ⟨?_, ?_, ?_⟩
  · intro tol maxIter f a b r h
    rcases biseccion_master tol maxIter f a b r h with hpre | hconcl
    · subst hpre
      simp [precondRes]
    · exact hconcl.2.2.2.1
  · intro tol maxIter f fp x0 r h
    exact (newton_master tol maxIter f fp x0 r h).2.2.2.1
  · intro tol maxIter g x0 r h
    exact (pf_master tol maxIter g x0 r h).2.2.2.1

/-- Claim C3 witness: the amended characterization at the divergence
run — `finalError = inf` holds together with `converged = false` and the
divergence message. -/
theorem C3_witness :
    (({ raiz := some ((10 : ℚ) ^ 11), iteraciones := 1,
        convergencia := false, error := none, historial_x := [0, 10 ^ 11],
        historial_error := [some (10 ^ 11)],
        mensaje := "Método divergente" } : Resultado).error = none ↔
     (({ raiz := some ((10 : ℚ) ^ 11), iteraciones := 1,
         convergencia := false, error := none, historial_x := [0, 10 ^ 11],
         historial_error := [some (10 ^ 11)],
         mensaje := "Método divergente" } : Resultado).convergencia = false ∧
      (({ raiz := some ((10 : ℚ) ^ 11), iteraciones := 1,
          convergencia := false, error := none, historial_x := [0, 10 ^ 11],
          historial_error := [some (10 ^ 11)],
          mensaje := "Método divergente" } : Resultado).historial_error = [] ∨
       ({ raiz := some ((10 : ℚ) ^ 11), iteraciones := 1,
          convergencia := false, error := none, historial_x := [0, 10 ^ 11],
          historial_error := [some (10 ^ 11)],
          mensaje := "Método divergente" } : Resultado).mensaje =
         "Método divergente"))) := by
  have h := C3_amended_thm.2.2 1 5 (tl fun _ => 10 ^ 11) 0
    { raiz := some (10 ^ 11), iteraciones := 1, convergencia := false,
      error := none, historial_x := [0, 10 ^ 11],
      historial_error := [some (10 ^ 11)],
      mensaje := "Método divergente" }
    (by norm_num [punto_fijo, tl, puntoFijoLoop, errGT, errLE, pfFinal,
      abs_of_nonneg])
  exact h

/-- Claim C8 (confirmed): Newton-Raphson on `f(x) = x - k` with constant
derivative `1` converges in exactly one iteration from any seed, with
`root = k` exactly, whenever the configuration is valid
(`tolerance > 0`, `maxIterations ≥ 1`). -/
theorem C8_thm (k x0 tol : ℚ) (maxIter : ℕ) (htol : 0 < tol)
    (hmax : 1 ≤ maxIter) :
    newton_raphson tol maxIter (tl fun x => x - k) (tl fun _ => 1) x0 =
      .ok { raiz := some k, iteraciones := 1, convergencia := true,
            error := some |k - x0|, historial_x := [x0, k],
            historial_error := [some |k - x0|],
            mensaje := "Convergencia exitosa" } := by
  obtain ⟨m, rfl⟩ := Nat.exists_eq_add_of_le' hmax
  have h1 : ¬ (|(1 : ℚ)| < 1 / 10 ^ 15) := by norm_num
  have hxn : x0 - (x0 - k) / 1 = k := by ring
  simp [newton_raphson, newtonLoop, errGT, tl, h1, hxn, htol]
  norm_num

/-- Claim C8 witness: the spec scenario `f(x) = 10 + x - 21`, seed 5. -/
theorem C8_witness :
    newton_raphson (1/1000000) 100 (tl fun x => x - 11) (tl fun _ => 1) 5 =
      .ok { raiz := some 11, iteraciones := 1, convergencia := true,
            error := some 6, historial_x := [5, 11],
            historial_error := [some 6],
            mensaje := "Convergencia exitosa" } := by
  have h := C8_thm 11 5 (1/1000000) 100 (by norm_num) (by norm_num)
  have habs : |(11 : ℚ) - 5| = 6 := by norm_num [abs_of_nonneg]
  rw [habs] at h
  exact h

/-- Claim C2, counterexample: fixed point of the constant self-map
`g(x) = 11` from seed `0` with tolerance `1e-6`: the solver needs **two**
iterations (the first step lands on `11` but its error `|11 - 0|` is above
tolerance; only the second step sees error `0`), contradicting the claimed
`iterations = 1`. -/
theorem C2_counterexample :
    punto_fijo (1/1000000) 5 (tl fun _ => 11) 0 =
      .ok { raiz := some 11, iteraciones := 2, convergencia := true,
            error := some 0, historial_x := [0, 11, 11],
            historial_error := [some 11, some 0],
            mensaje := "Convergencia exitosa" } ∧ (2 : ℕ) ≠ 1 := by
  constructor
  · norm_num [punto_fijo, tl, puntoFijoLoop, errGT, errLE, pfFinal,
      abs_of_nonneg]
  · decide

/-- Claim C2, amended: fixed-point iteration on the constant self-map
`g(x) = k` from a seed `x0 ≠ k` returns `converged = true` with
`root = k`, but the iteration count is 1 only when the first step error
`|k - x0|` already reaches the tolerance; when `|k - x0| > tolerance` the
solver needs exactly 2 iterations (and requires `maxIterations ≥ 2` and
`|k| ≤ 1e10` so that the divergence guard does not fire). -/
theorem C2_amended_thm (k x0 tol : ℚ) (maxIter : ℕ) (htol : 0 < tol)
    (_hne : x0 ≠ k) :
    (|k - x0| < tol → 1 ≤ maxIter →
      punto_fijo tol maxIter (tl fun _ => k) x0 =
        .ok { raiz := some k, iteraciones := 1, convergencia := true,
              error := some |k - x0|, historial_x := [x0, k],
              historial_error := [some |k - x0|],
              mensaje := "Convergencia exitosa" }) ∧
    (|k - x0| = tol → |k| ≤ 10 ^ 10 → 1 ≤ maxIter →
      punto_fijo tol maxIter (tl fun _ => k) x0 =
        .ok { raiz := some k, iteraciones := 1, convergencia := true,
              error := some |k - x0|, historial_x := [x0, k],
              historial_error := [some |k - x0|],
              mensaje := "Convergencia exitosa" }) ∧
    (tol < |k - x0| → |k| ≤ 10 ^ 10 → 2 ≤ maxIter →
      punto_fijo tol maxIter (tl fun _ => k) x0 =
        .ok { raiz := some k, iteraciones := 2, convergencia := true,
              error := some 0, historial_x := [x0, k, k],
              historial_error := [some |k - x0|, some 0],
              mensaje := "Convergencia exitosa" }) := by
  refine ⟨?_, ?_, ?_⟩
  · intro hlt hmax
    obtain ⟨m, rfl⟩ := Nat.exists_eq_add_of_le' hmax
    simp [punto_fijo, puntoFijoLoop, errGT, tl, hlt]
  · intro heq hk hmax
    obtain ⟨m, rfl⟩ := Nat.exists_eq_add_of_le' hmax
    have hnlt : ¬ (|k - x0| < tol) := by rw [heq]; exact lt_irrefl tol
    have hng : ¬ ((10 : ℚ) ^ 10 < |k|) := not_lt.mpr hk
    have hstop : errGT (some |k - x0|) tol = false := by
      simp [errGT, heq]
    simp only [punto_fijo, puntoFijoLoop, errGT, tl]
    rw [if_pos trivial, if_neg hnlt, if_neg hng,
      puntoFijoLoop_stop _ _ _ _ _ _ _ _ hstop]
    simp [pfFinal, errLE, heq]
  · intro hgt hk hmax
    obtain ⟨m, rfl⟩ := Nat.exists_eq_add_of_le' hmax
    have hnlt : ¬ (|k - x0| < tol) := not_lt.mpr (le_of_lt hgt)
    have hng : ¬ ((10 : ℚ) ^ 10 < |k|) := not_lt.mpr hk
    simp [punto_fijo, puntoFijoLoop, errGT, tl, hnlt, hng, hgt, htol]

/-- Claim C2 witness: the amended theorem at the spec scenario
(`g = 11`, seed 0, tolerance `1e-6`): two iterations. -/
theorem C2_witness :
    punto_fijo (1/1000000) 100 (tl fun _ => 11) 0 =
      .ok { raiz := some 11, iteraciones := 2, convergencia := true,
            error := some 0, historial_x := [0, 11, 11],
            historial_error := [some 11, some 0],
            mensaje := "Convergencia exitosa" } := by
  have h := (C2_amended_thm 11 0 (1/1000000) 100 (by norm_num)
    (by norm_num)).2.2 (by norm_num [abs_of_nonneg]) (by norm_num [abs_of_nonneg])
    (by norm_num)
  simpa [abs_of_nonneg] using h

end MetNum
